import Mathlib

/-!
Verification of the DocuMind backend (document ingestion + retrieval-augmented
answering service) against its natural-language specification.

The Python sources under `backend/` are shallowly embedded: strings are
`List Char`, pure functions become Lean functions, the mutable vector store and
upload log become explicit state threaded through the ingestion pipeline, and
calls into external libraries (sentence-transformers, ChromaDB, Gemini,
PyPDF2/docx parsers, LangChain's splitter) are parameters/oracles supplied at
each call site.  Fallible code returns `Except`.
-/

namespace DocuMind

/-! ## Python string helpers -/

/-- Python whitespace test used by `str.strip()` (ASCII subset suffices here). -/
def isPyWS (c : Char) : Bool := c.isWhitespace

/-- `str.strip()`: drop whitespace from both ends. -/
def pyStrip (l : List Char) : List Char :=
  ((l.dropWhile isPyWS).reverse.dropWhile isPyWS).reverse

/-- Helper for `splitOnNN`: prepend a character to the first part of a split
(creating a part when there is none). -/
def consHead (c : Char) : List (List Char) → List (List Char)
  | [] => [[c]]
  | p :: ps => (c :: p) :: ps

/-- Python `text.split("\n\n")`: split on the two-character separator,
left to right, non-overlapping.  `"".split("\n\n") == [""]`. -/
def splitOnNN : List Char → List (List Char)
  | [] => [[]]
  | '\n' :: '\n' :: rest => [] :: splitOnNN rest
  | c :: rest => consHead c (splitOnNN rest)

/-- Python `filename.split(".")[-1].lower()` (`main.py`): the lower-cased text
after the last dot, or the whole name when there is no dot. -/
def fileExt (filename : List Char) : List Char :=
  (((filename.splitOn '.').getLast?).getD []).map Char.toLower

/-- Python `s.replace(pat, "")` for a non-empty `pat`: remove all
non-overlapping occurrences, scanning left to right.  (The call site in
`local_model_manager.py` always passes the non-empty prompt.) -/
def removeAll (pat : List Char) : List Char → List Char
  | [] => []
  | c :: rest =>
    if h : pat ≠ [] ∧ pat.isPrefixOf (c :: rest) then
      removeAll pat (List.drop pat.length (c :: rest))
    else
      c :: removeAll pat rest
termination_by l => l.length
decreasing_by
  · simp only [List.length_drop, List.length_cons]
    have hp : 0 < pat.length := List.length_pos.mpr h.1
    omega
  · simp only [List.length_cons]
    omega

/-! ## Query analyzer (`agents/query_analyzer.py`) -/

/-- The four intent categories of `QueryAnalyzerAgent.analyze_query`. -/
inductive QueryType where
  | definition
  | process
  | comparison
  | general
deriving DecidableEq, Repr

/-- Result of `analyze_query`: the original query plus its classified type. -/
structure QueryAnalysis where
  original_query : List Char
  query_type : QueryType
deriving DecidableEq, Repr

def definition_keywords : List (List Char) :=
  ["what is".data, "define".data, "definition".data]

def process_keywords : List (List Char) :=
  ["how".data, "process".data, "steps".data, "method".data]

def comparison_keywords : List (List Char) :=
  ["compare".data, "difference".data, "vs".data, "versus".data]

/-- Python `any(word in query_lower for word in kws)`: some keyword occurs as a
substring. -/
def containsAny (q : List Char) (kws : List (List Char)) : Bool :=
  kws.any (fun k => decide (k <:+: q))

/-- `QueryAnalyzerAgent.analyze_query`: lower-case the query, then test the
keyword sets in fixed order (definition, process, comparison), defaulting to
`general`; the original query is returned unchanged. -/
def analyze_query (query : List Char) : QueryAnalysis :=
  let query_lower := query.map Char.toLower
  if containsAny query_lower definition_keywords then
    ⟨query, .definition⟩
  else if containsAny query_lower process_keywords then
    ⟨query, .process⟩
  else if containsAny query_lower comparison_keywords then
    ⟨query, .comparison⟩
  else
    ⟨query, .general⟩

/-! ## Source deduplication (`agents/search_agent.py`, `main.py` simple-chat) -/

/-- Chunk metadata as read back from the vector store; `metadata.get(k, d)`
defaults are modelled by `Option`. -/
structure SourceMeta where
  filename : Option (List Char)
  title : Option (List Char)
  author : Option (List Char)
deriving DecidableEq, Repr

/-- One entry of the deduplicated source list returned to the caller. -/
structure SourceInfo where
  filename : List Char
  title : List Char
  author : List Char
deriving DecidableEq, Repr

/-- Python `f"{metadata.get('filename', '')}-{metadata.get('title', '')}"`:
the dedup key is the single concatenated string, with `""` defaults. -/
def sourceKey (m : SourceMeta) : List Char :=
  m.filename.getD [] ++ ('-' :: m.title.getD [])

/-- The source entry built from one metadata record (defaults `"Unknown"`,
`"Untitled"`, `"Unknown"`). -/
def sourceInfoOf (m : SourceMeta) : SourceInfo :=
  ⟨m.filename.getD "Unknown".data, m.title.getD "Untitled".data,
    m.author.getD "Unknown".data⟩

/-- The dedup loop of `SearchAgent.search_documents`: walk the metadata list,
skip an entry whose key is in `seen`, otherwise emit it and record its key.
(The Python `set` is modelled as the list of keys seen so far.) -/
def dedupeSources : List SourceMeta → List (List Char) → List SourceInfo
  | [], _ => []
  | m :: ms, seen =>
    if sourceKey m ∈ seen then
      dedupeSources ms seen
    else
      sourceInfoOf m :: dedupeSources ms (sourceKey m :: seen)

/-- Modelled from the spec: "deduplicate sources by a composite key of
filename+title (first occurrence wins, insertion order preserved)" — the
first occurrence of each key is kept and every later entry with the same key
is dropped. -/
def firstOccByKey : List SourceMeta → List SourceInfo
  | [] => []
  | m :: ms =>
    sourceInfoOf m ::
      firstOccByKey (ms.filter (fun m2 => decide (sourceKey m2 ≠ sourceKey m)))
termination_by l => l.length
decreasing_by
  simp only [List.length_cons]
  exact Nat.lt_succ_of_le (List.length_filter_le _ _)

/-- Output record of `SearchAgent.search_documents`. -/
structure SearchOut where
  context_chunks : List (List Char)
  sources : List SourceInfo
  total_chunks_found : Nat
  error : Option (List Char)
deriving DecidableEq, Repr

/-- `SearchAgent.search_documents`: the embedding + vector-store query is an
external call, modelled by its outcome `queryRes` (documents and metadatas of
the first query result).  On success the chunks are returned together with the
deduplicated sources; the surrounding `try/except` turns any failure into an
empty result set carrying the error string. -/
def search_documents
    (queryRes : Except (List Char) (List (List Char) × List SourceMeta)) :
    SearchOut :=
  match queryRes with
  | .ok (docs, metas) => ⟨docs, dedupeSources metas [], docs.length, none⟩
  | .error e => ⟨[], [], 0, some e⟩

/-! ## Chunker (`main.py`: `split_text_into_chunks`) -/

/-- The fallback branch of `split_text_into_chunks` (taken when LangChain is
not importable): `[p.strip() for p in text.split('\n\n') if p.strip()]`. -/
def split_text_into_chunks_fallback (text : List Char) : List (List Char) :=
  ((splitOnNN text).map pyStrip).filter (fun p => p ≠ [])

/-- `split_text_into_chunks`: when LangChain is available the external
`RecursiveCharacterTextSplitter(chunk_size := 512, chunk_overlap := 50)` is
used (an external library call, passed as the oracle `langchain_splitter`);
otherwise the in-repository fallback splits on blank lines. -/
def split_text_into_chunks (langchain_available : Bool)
    (langchain_splitter : List Char → List (List Char))
    (text : List Char) : List (List Char) :=
  if langchain_available then langchain_splitter text
  else split_text_into_chunks_fallback text

/-! ## Embedder retry loop (`main.py`: `safe_encode`) -/

/-- Observable events of `safe_encode`: one call of `model.encode`, or the
one-second `time.sleep(1)` between attempts. -/
inductive EncodeEv where
  | callEncode
  | sleepSecond
deriving DecidableEq, Repr

/-- The `for attempt in range(max_retries)` loop of `safe_encode`, over the
remaining attempt indices.  `f n` is the outcome of the external
`model.encode` call on attempt `n`.  Returns the result (`none` only when the
index list is exhausted without a final raise, i.e. `max_retries = 0`) and
the trace of calls and sleeps. -/
def safe_encode_go {R : Type} (f : Nat → Except (List Char) R)
    (max_retries : Nat) :
    List Nat → Option (Except (List Char) R) × List EncodeEv
  | [] => (none, [])
  | a :: rest =>
    match f a with
    | .ok r => (some (.ok r), [.callEncode])
    | .error e =>
      if a < max_retries - 1 then
        let r := safe_encode_go f max_retries rest
        (r.1, .callEncode :: .sleepSecond :: r.2)
      else
        (some (.error ("Embedding failed after ".data ++
            (Nat.repr max_retries).data ++ " retries: ".data ++ e)),
          [.callEncode])

/-- `safe_encode(texts, max_retries=3)`: try `model.encode` up to
`max_retries` times, sleeping one second between consecutive attempts; after
the final failure raise `Embedding failed after {max_retries} retries: {e}`
carrying the last error. -/
def safe_encode {R : Type} (f : Nat → Except (List Char) R)
    (max_retries : Nat := 3) :
    Option (Except (List Char) R) × List EncodeEv :=
  safe_encode_go f max_retries (List.range max_retries)

/-! ## Metadata extraction and the ingestion pipeline (`main.py`) -/

/-- File-level metadata (title, author, page count). -/
structure FileMeta where
  title : List Char
  author : List Char
  pages : Nat
deriving DecidableEq, Repr

/-- `extract_file_metadata`: PDF and DOCX metadata come from external readers
(whose already-caught, defaulted results are the `pdf_meta` / `docx_meta`
arguments); any other extension gets `{title: filename, author: "Unknown",
pages: 0}`. -/
def extract_file_metadata (pdf_meta docx_meta : FileMeta)
    (filename : List Char) : FileMeta :=
  let ext := fileExt filename
  if ext = "pdf".data then pdf_meta
  else if ext = "docx".data then docx_meta
  else ⟨filename, "Unknown".data, 0⟩

/-- One stored vector-store entry: the chunk text plus the per-chunk metadata
built in the "preparing" stage (`filename`, `file_hash`, `chunk_length`, and
the file-level metadata). -/
structure StoredChunk where
  text : List Char
  filename : List Char
  file_hash : List Char
  chunk_length : Nat
  meta : FileMeta
deriving DecidableEq, Repr

/-- One record of the upload log (`log_upload`). -/
structure LogEntry where
  filename : List Char
  chunks_stored : Nat
  upload_time : List Char
  meta : FileMeta
  file_hash : List Char
deriving DecidableEq, Repr

/-- The upload-log file on disk: missing, present but not valid JSON, or a
valid array of entries. -/
inductive LogFile where
  | absent
  | corrupt
  | valid (entries : List LogEntry)
deriving DecidableEq, Repr

/-- `log_upload`: read the log (a missing file or a `json.JSONDecodeError`
both yield `[]`), append the new entry, write the whole array back. -/
def log_upload (lf : LogFile) (filename : List Char) (chunks_count : Nat)
    (meta : FileMeta) (file_hash : List Char) (now : List Char) : LogFile :=
  let log_data : List LogEntry :=
    match lf with
    | .absent => []
    | .corrupt => []
    | .valid l => l
  .valid (log_data ++ [⟨filename, chunks_count, now, meta, file_hash⟩])

/-- The persistent state touched by ingestion: the vector-store collection and
the upload-log file. -/
structure SysState where
  store : List StoredChunk
  log : LogFile
deriving DecidableEq, Repr

/-- `collection.get(where={"file_hash": h})` followed by the non-empty check on
its `ids`: true iff some stored entry has this content hash. -/
def hashExists (store : List StoredChunk) (h : List Char) : Bool :=
  store.any (fun c => c.file_hash == h)

/-- One uploaded file as the pipeline sees it: its name, the MD5 content hash
computed by `get_file_hash`, the text produced by the external parser for its
type, and the external metadata reader's result (used for PDF/DOCX). -/
structure FileInput where
  filename : List Char
  content_hash : List Char
  parsed_text : List Char
  ext_meta : FileMeta
deriving DecidableEq, Repr

/-- The failure modes `process_file_with_progress` raises. -/
inductive PipeErr where
  | duplicateFile (filename : List Char)
  | unsupportedType (filename : List Char)
  | noReadableText (filename : List Char)
  | emptyChunkSet (filename : List Char)
  | embeddingFailed (msg : List Char)
deriving DecidableEq, Repr

/-- `str(e)` of each raised exception, as formatted in `main.py`. -/
def errMsg : PipeErr → List Char
  | .duplicateFile fn => "File already indexed: ".data ++ fn
  | .unsupportedType fn => "Unsupported file type: ".data ++ fn
  | .noReadableText fn => "No readable text found in ".data ++ fn
  | .emptyChunkSet fn => "No chunks created from ".data ++ fn
  | .embeddingFailed m => m

/-- The per-file summary returned on success. -/
structure Summary where
  filename : List Char
  chunks_stored : Nat
  embedding_dimension : Nat
  meta : FileMeta
deriving DecidableEq, Repr

/-- The extensions `process_file_with_progress` dispatches on. -/
def supported_exts : List (List Char) :=
  ["pdf".data, "docx".data, "csv".data, "txt".data]

/-- `process_file_with_progress`: validate (duplicate hash check) → extract
metadata → parse (unsupported extension / empty text are hard failures) →
chunk (`chunker` is `split_text_into_chunks`; empty chunk list is a hard
failure) → embed (`encode` is the outcome of `safe_encode` on these chunks) →
prepare per-chunk metadata → add to the store → append the upload-log entry.
Every failure raises before any write, leaving the state unchanged.
(`model.encode` returns one vector per input chunk, so on success
`embeddings` is non-empty; the head-based dimension mirrors
`len(embeddings[0])`.) -/
def process_file_with_progress
    (chunker : List Char → List (List Char))
    (encode : List (List Char) → Except (List Char) (List (List Int)))
    (now : List Char)
    (st : SysState) (f : FileInput) : Except PipeErr Summary × SysState :=
  if hashExists st.store f.content_hash then
    (.error (.duplicateFile f.filename), st)
  else
    let extracted_metadata := extract_file_metadata f.ext_meta f.ext_meta f.filename
    let ext := fileExt f.filename
    if ext ∈ supported_exts then
      let text := f.parsed_text
      if pyStrip text = [] then
        (.error (.noReadableText f.filename), st)
      else
        let chunks := chunker text
        if chunks = [] then
          (.error (.emptyChunkSet f.filename), st)
        else
          match encode chunks with
          | .error e => (.error (.embeddingFailed e), st)
          | .ok embeddings =>
            let new_entries := chunks.map (fun ch =>
              StoredChunk.mk ch f.filename f.content_hash ch.length
                extracted_metadata)
            let st' : SysState :=
              ⟨st.store ++ new_entries,
                log_upload st.log f.filename chunks.length extracted_metadata
                  f.content_hash now⟩
            (.ok ⟨f.filename, chunks.length,
                (match embeddings with | e :: _ => e.length | [] => 0),
                extracted_metadata⟩,
              st')
    else
      (.error (.unsupportedType f.filename), st)

/-! ## Batch upload (`main.py`: `upload_folder`) -/

/-- One structured per-file error entry of the batch response. -/
structure BatchErr where
  filename : List Char
  error : List Char
deriving DecidableEq, Repr

/-- The `for i, file in enumerate(files)` loop of `upload_folder`: process the
files strictly in order, threading the store/log state; a success appends to
`results`, a raised pipeline error is caught and appended to `errors`, and the
loop continues either way. -/
def uploadLoop
    (chunker : List Char → List (List Char))
    (encode : List (List Char) → Except (List Char) (List (List Int)))
    (now : List Char) :
    SysState → List FileInput → List Summary × List BatchErr × SysState
  | st, [] => ([], [], st)
  | st, f :: fs =>
    match process_file_with_progress chunker encode now st f with
    | (.ok s, st') =>
      let r := uploadLoop chunker encode now st' fs
      (s :: r.1, r.2.1, r.2.2)
    | (.error e, st') =>
      let r := uploadLoop chunker encode now st' fs
      (r.1, ⟨f.filename, errMsg e⟩ :: r.2.1, r.2.2)

/-- The JSON body `upload_folder` returns. -/
structure FolderResponse where
  status : List Char
  documents_processed : List Summary
  errors : List BatchErr
  processed_count : Nat
  error_count : Nat
  total_files : Nat
deriving DecidableEq, Repr

/-- `upload_folder`: an empty batch is answered with the fixed one-error
response; otherwise the files are processed sequentially and the collected
successes and per-file errors are returned with their counts. -/
def upload_folder
    (chunker : List Char → List (List Char))
    (encode : List (List Char) → Except (List Char) (List (List Int)))
    (now : List Char)
    (st : SysState) (files : List FileInput) : FolderResponse × SysState :=
  if files.length = 0 then
    (⟨"failed".data, [], [⟨"folder".data, "No files received".data⟩], 0, 1, 0⟩,
      st)
  else
    let r := uploadLoop chunker encode now st files
    (⟨(if r.1 ≠ [] then "success".data else "failed".data),
        r.1, r.2.1, r.1.length, r.2.1.length, files.length⟩,
      r.2.2)

/-! ## Model manager (`local_model_manager.py`) -/

/-- The two HuggingFace pipeline kinds `generate_response` dispatches on. -/
inductive MMTask where
  | textGeneration
  | text2textGeneration
deriving DecidableEq, Repr

/-- The mutable configuration of `LocalModelManager`: the current model name,
whether the Gemini client was initialized (`self.gemini_model`), and the
loaded local pipeline (`self.model`) with its task kind, if any. -/
structure MMState where
  current_model : List Char
  gemini_available : Bool
  local_task : Option MMTask
deriving DecidableEq, Repr

/-- `LocalModelManager.generate_response`: use Gemini when selected and
available, else the loaded local pipeline, else the fixed fallback sentence.
The whole body is wrapped in `try/except`, so a failing external model call
(the `gemini_call` / `local_call` oracles) becomes the string
`"Sorry, I encountered an error: {e}"` instead of an exception.  For
text-generation pipelines the echoed prompt is removed from the output and the
result stripped. -/
def generate_response (mm : MMState)
    (gemini_call local_call : List Char → Except (List Char) (List Char))
    (prompt : List Char) : List Char :=
  if mm.current_model = "gemini".data ∧ mm.gemini_available then
    match gemini_call prompt with
    | .ok t => t
    | .error e => "Sorry, I encountered an error: ".data ++ e
  else
    match mm.local_task with
    | some .textGeneration =>
      match local_call prompt with
      | .ok g => pyStrip (removeAll prompt g)
      | .error e => "Sorry, I encountered an error: ".data ++ e
    | some .text2textGeneration =>
      match local_call prompt with
      | .ok g => g
      | .error e => "Sorry, I encountered an error: ".data ++ e
    | none =>
      "I understand your question but couldn't generate a detailed response with the current model configuration.".data

/-! ## Answer generation (`agents/answer_generator.py`) -/

/-- One numbered source block: `f"📄 Source {i+1}:\n{chunk}"`. -/
def sourceBlock (i : Nat) (chunk : List Char) : List Char :=
  "📄 Source ".data ++ (Nat.repr (i + 1)).data ++ ":\n".data ++ chunk

/-- `"\n\n".join(f"📄 Source {i+1}:\n{chunk}" for i, chunk in enumerate(...))`. -/
def formatContext (chunks : List (List Char)) : List Char :=
  List.intercalate "\n\n".data (chunks.enum.map (fun p => sourceBlock p.1 p.2))

/-- The `definition` prompt template of `generate_answer`. -/
def prompt_definition (context query : List Char) : List Char :=
  "Based EXCLUSIVELY on the provided document context, provide a comprehensive answer to the user's question.\n\nDOCUMENT CONTEXT:\n".data
    ++ context
    ++ "\n\nUSER QUESTION: ".data
    ++ query
    ++ "\n\nPlease structure your answer as:\n- **Clear Definition**: Start with a concise definition\n- **Key Characteristics**: Main features or aspects\n- **Importance/Significance**: Why it matters\n- **Applications/Examples**: Where and how it's used\n- **Summary**: Brief recap\n\nUse markdown formatting with headers (##), bullet points, and **bold** for key terms.\nAnswer using ONLY the document context above. If the context doesn't contain enough information, say so.".data

/-- The `process` prompt template of `generate_answer`. -/
def prompt_process (context query : List Char) : List Char :=
  "Based EXCLUSIVELY on the provided document context, explain the process or method asked about.\n\nDOCUMENT CONTEXT:\n".data
    ++ context
    ++ "\n\nUSER QUESTION: ".data
    ++ query
    ++ "\n\nPlease structure your answer as:\n- **Overview**: Brief introduction to the process\n- **Step-by-Step Explanation**: Clear sequential steps\n- **Key Components**: Important elements involved\n- **Applications**: Where this process is used\n- **Considerations**: Important factors or limitations\n\nUse markdown formatting and be practical. Answer using ONLY the document context above.".data

/-- The `comparison` prompt template of `generate_answer`. -/
def prompt_comparison (context query : List Char) : List Char :=
  "Based EXCLUSIVELY on the provided document context, compare the concepts asked about.\n\nDOCUMENT CONTEXT:\n".data
    ++ context
    ++ "\n\nUSER QUESTION: ".data
    ++ query
    ++ "\n\nPlease structure your answer as:\n- **Overview**: Brief introduction to both concepts\n- **Key Differences**: Clear comparison points\n- **Similarities**: Common aspects\n- **Use Cases**: When to use each\n- **Summary**: Comparative conclusion\n\nUse markdown formatting with tables or clear sections. Answer using ONLY the document context above.".data

/-- The `general` prompt template of `generate_answer`. -/
def prompt_general (context query : List Char) : List Char :=
  "Based EXCLUSIVELY on the provided document context, provide a comprehensive and well-structured answer to the user's question.\n\nDOCUMENT CONTEXT:\n".data
    ++ context
    ++ "\n\nUSER QUESTION: ".data
    ++ query
    ++ "\n\nPlease provide a natural, flowing answer that:\n- Directly addresses the question\n- Explains key concepts clearly\n- Uses appropriate examples from the context\n- Highlights important points\n- Maintains logical flow\n\nUse markdown formatting with:\n## Headers for main sections\n- Bullet points for lists\n**Bold** for key terms and definitions\nClear paragraph structure\n\nAnswer using ONLY the document context above. If the information is insufficient, acknowledge this politely.".data

/-- `AnswerGeneratorAgent.generate_answer`: format the retrieved chunks as
numbered source blocks, select the template by the analysis' query type,
and call `model_manager.generate_response`.  The model call never raises (its
own handler converts failures to text), so for this flow the stage's outer
`except` — which would return
`"I found relevant documents but encountered an error: {e}"` — is never
reached. -/
def generate_answer (mm : MMState)
    (gemini_call local_call : List Char → Except (List Char) (List Char))
    (query : List Char) (context_chunks : List (List Char))
    (query_analysis : QueryAnalysis) : List Char :=
  let context := formatContext context_chunks
  let prompt :=
    match query_analysis.query_type with
    | .definition => prompt_definition context query
    | .process => prompt_process context query
    | .comparison => prompt_comparison context query
    | .general => prompt_general context query
  generate_response mm gemini_call local_call prompt

/-! ## Orchestrator and chat route (`agents/orchestrator.py`, `main.py`) -/

/-- The response body of the `/chat` family of routes. -/
structure ChatResponse where
  question : List Char
  answer : List Char
  sources : List SourceInfo
  model_used : List Char
deriving DecidableEq, Repr

/-- `AgentOrchestrator.process_query`: classify → retrieve → generate, then
assemble the response (with the placeholder model name the route overwrites). -/
def process_query (mm : MMState)
    (gemini_call local_call : List Char → Except (List Char) (List Char))
    (queryRes : Except (List Char) (List (List Char) × List SourceMeta))
    (query : List Char) : ChatResponse :=
  let query_analysis := analyze_query query
  let search_results := search_documents queryRes
  let answer := generate_answer mm gemini_call local_call query
    search_results.context_chunks query_analysis
  ⟨query, answer, search_results.sources, "agentic".data⟩

/-- The `/chat` route body: run the orchestrator and stamp the current
inference model name into the response. -/
def chat_with_documents (current_inference_model : List Char) (mm : MMState)
    (gemini_call local_call : List Char → Except (List Char) (List Char))
    (queryRes : Except (List Char) (List (List Char) × List SourceMeta))
    (query : List Char) : ChatResponse :=
  let r := process_query mm gemini_call local_call queryRes query
  { r with model_used := current_inference_model }

/-! ## Chat history store (`chat_history.py`) -/

/-- One chat message. -/
structure ChatMsg where
  role : List Char
  content : List Char
  timestamp : List Char
  sources : List SourceInfo
deriving DecidableEq, Repr

/-- One chat session.  `is_active` is `Option Bool` because reads use
`session_data.get("is_active", True)`. -/
structure Session where
  id : List Char
  user_id : List Char
  title : List Char
  messages : List ChatMsg
  created_at : List Char
  updated_at : List Char
  is_active : Option Bool
deriving DecidableEq, Repr

/-- A user's chat file: the `"sessions"` dict as an insertion-ordered
association list from session ID to session. -/
abbrev UserFile : Type := List (List Char × Session)

/-- Lexicographic `<=` on Python strings (code-point order). -/
def strLeB : List Char → List Char → Bool
  | [], _ => true
  | _ :: _, [] => false
  | a :: as, b :: bs => if a = b then strLeB as bs else decide (a < b)

/-- `ChatHistoryManager.get_user_sessions`: the active sessions (missing
`is_active` counts as active), sorted by `updated_at` descending; the sort is
stable, like Python's. -/
def get_user_sessions (file : UserFile) : List Session :=
  ((file.map Prod.snd).filter (fun s => s.is_active.getD true)).mergeSort
    (fun a b => strLeB b.updated_at a.updated_at)

/-- The in-place mutation `user_data["sessions"][session_id]["is_active"] =
False` on the association list. -/
def set_inactive (file : UserFile) (session_id : List Char) : UserFile :=
  file.map (fun p =>
    if p.1 = session_id then (p.1, { p.2 with is_active := some false }) else p)

/-- `ChatHistoryManager.delete_session`: if the session ID is present, flip its
active flag to `False` and save; return whether it was present.  Nothing is
ever removed from the file. -/
def delete_session (file : UserFile) (session_id : List Char) :
    Bool × UserFile :=
  if (file.map Prod.fst).contains session_id then
    (true, set_inactive file session_id)
  else
    (false, file)

/-! ## Helper lemmas -/

theorem consHead_ne_nil (c : Char) (l : List (List Char)) : consHead c l ≠ [] := by
  cases l <;> simp [consHead]

theorem splitOnNN_cons_eq (c : Char) (rest : List Char)
    (hne : ∀ rs, c = '\n' → rest = '\n' :: rs → False) :
    splitOnNN (c :: rest) = consHead c (splitOnNN rest) := by
  rw [splitOnNN.eq_def]
  split
  · rename_i heq; cases heq
  · rename_i rs heq
    injection heq with hc hrest
    exact ((hne rs hc hrest).elim)
  · rename_i x1 c1 r1 hcon heq1
    cases heq1
    rfl

theorem splitOnNN_no_newline : ∀ {l : List Char}, '\n' ∉ l → splitOnNN l = [l] := by
  intro l
  induction l using splitOnNN.induct with
  | case1 => intro _; rfl
  | case2 rest ih =>
    intro h
    exact absurd (List.mem_cons_self _ _) h
  | case3 c rest hne ih =>
    intro h
    rw [splitOnNN_cons_eq c rest hne,
      ih (fun m => h (List.mem_cons_of_mem _ m))]
    rfl

theorem mem_consHead_self (c : Char) (l : List (List Char)) :
    ∃ p ∈ consHead c l, c ∈ p := by
  cases l with
  | nil => exact ⟨[c], by simp [consHead]⟩
  | cons p ps => exact ⟨c :: p, by simp [consHead]⟩

theorem mem_consHead_of_mem (c x : Char) (l : List (List Char)) (p : List Char)
    (hp : p ∈ l) (hx : x ∈ p) : ∃ q ∈ consHead c l, x ∈ q := by
  cases l with
  | nil => simp at hp
  | cons a as =>
    rcases List.mem_cons.mp hp with h | h
    · exact ⟨c :: a, List.mem_cons_self _ _, by simp [← h, hx]⟩
    · exact ⟨p, List.mem_cons_of_mem _ h, hx⟩

theorem splitOnNN_mem (x : Char) :
    ∀ l : List Char, x ∈ l → x ≠ '\n' → ∃ p ∈ splitOnNN l, x ∈ p := by
  intro l
  induction l using splitOnNN.induct with
  | case1 => intro h; simp at h
  | case2 rest ih =>
    intro h hx
    rcases List.mem_cons.mp h with h | h
    · exact absurd h hx
    rcases List.mem_cons.mp h with h | h
    · exact absurd h hx
    rcases ih h hx with ⟨p, hp, hxp⟩
    exact ⟨p, by simpa [splitOnNN] using Or.inr hp, hxp⟩
  | case3 c rest hne ih =>
    intro h hx
    rw [splitOnNN_cons_eq c rest hne]
    rcases List.mem_cons.mp h with h | h
    · exact h ▸ mem_consHead_self c (splitOnNN rest)
    · rcases ih h hx with ⟨p, hp, hxp⟩
      exact mem_consHead_of_mem c x _ p hp hxp

theorem dropWhile_eq_self_of_all (p : Char → Bool) :
    ∀ l : List Char, (∀ c ∈ l, p c = false) → l.dropWhile p = l := by
  intro l h
  cases l with
  | nil => rfl
  | cons a as =>
    rw [List.dropWhile_cons, h a (List.mem_cons_self _ _)]
    simp

theorem pyStrip_eq_self_of_all (l : List Char)
    (h : ∀ c ∈ l, isPyWS c = false) : pyStrip l = l := by
  unfold pyStrip
  rw [dropWhile_eq_self_of_all _ l h,
    dropWhile_eq_self_of_all _ l.reverse (fun c hc => h c (List.mem_reverse.mp hc)),
    List.reverse_reverse]

theorem mem_dropWhile_of_mem (p : Char → Bool) :
    ∀ l : List Char, ∀ c ∈ l, p c = false → c ∈ l.dropWhile p := by
  intro l
  induction l with
  | nil => intro c hc; simp at hc
  | cons a as ih =>
    intro c hc hpc
    by_cases ha : p a = true
    · rw [List.dropWhile_cons, ha]
      simp only [if_true]
      rcases List.mem_cons.mp hc with h | h
      · rw [h] at hpc; rw [hpc] at ha; cases ha
      · exact ih c h hpc
    · rw [List.dropWhile_cons, if_neg ha]
      exact hc

theorem mem_pyStrip (c : Char) (l : List Char) (hc : c ∈ l)
    (h : isPyWS c = false) : c ∈ pyStrip l := by
  unfold pyStrip
  rw [List.mem_reverse]
  exact mem_dropWhile_of_mem _ _ c
    (List.mem_reverse.mpr (mem_dropWhile_of_mem _ _ c hc h)) h

theorem containsAny_of_infix {ql k : List Char} {kws : List (List Char)}
    (hk : k ∈ kws) (h : k <:+: ql) : containsAny ql kws = true := by
  simp only [containsAny, List.any_eq_true, decide_eq_true_eq]
  exact ⟨k, hk, h⟩

theorem dedupeSources_eq_firstOcc (ms : List SourceMeta) :
    ∀ seen : List (List Char),
      dedupeSources ms seen
        = firstOccByKey (ms.filter (fun m => decide (sourceKey m ∉ seen))) := by
  induction ms with
  | nil => intro seen; simp [dedupeSources, firstOccByKey]
  | cons m ms ih =>
    intro seen
    by_cases h : sourceKey m ∈ seen
    · have hfilter : List.filter (fun x => decide (sourceKey x ∉ seen)) (m :: ms)
          = List.filter (fun x => decide (sourceKey x ∉ seen)) ms := by
        rw [List.filter_cons]
        simp [h]
      rw [hfilter]
      simpa [dedupeSources, h] using ih seen
    · have hfilter : List.filter (fun x => decide (sourceKey x ∉ seen)) (m :: ms)
          = m :: List.filter (fun x => decide (sourceKey x ∉ seen)) ms := by
        rw [List.filter_cons]
        simp [h]
      rw [hfilter, firstOccByKey.eq_def]
      simp only [List.filter_filter]
      simp only [dedupeSources, if_neg h]
      rw [ih (sourceKey m :: seen)]
      have hfc : List.filter (fun x => decide (sourceKey x ∉ sourceKey m :: seen)) ms
          = List.filter (fun a =>
              decide (sourceKey a ≠ sourceKey m) && decide (sourceKey a ∉ seen)) ms := by
        apply List.filter_congr
        intro x _
        simp [List.mem_cons, not_or, And.comm]
      rw [hfc]

/-! ## Claim theorems -/

/-- C2: `analyze_query` is deterministic and total — every input maps to
exactly one of the four categories, with priority
definition > process > comparison > general when the keyword sets overlap (in
particular any query containing both "what is" and "difference" classifies as
definition), and the result carries the original query text unchanged. -/
theorem analyze_query_total_with_priority (q : List Char) :
    (analyze_query q).original_query = q
    ∧ ((analyze_query q).query_type = .definition
        ∨ (analyze_query q).query_type = .process
        ∨ (analyze_query q).query_type = .comparison
        ∨ (analyze_query q).query_type = .general)
    ∧ (containsAny (q.map Char.toLower) definition_keywords = true →
        (analyze_query q).query_type = .definition)
    ∧ (containsAny (q.map Char.toLower) definition_keywords = false →
       containsAny (q.map Char.toLower) process_keywords = true →
        (analyze_query q).query_type = .process)
    ∧ (containsAny (q.map Char.toLower) definition_keywords = false →
       containsAny (q.map Char.toLower) process_keywords = false →
       containsAny (q.map Char.toLower) comparison_keywords = true →
        (analyze_query q).query_type = .comparison)
    ∧ (containsAny (q.map Char.toLower) definition_keywords = false →
       containsAny (q.map Char.toLower) process_keywords = false →
       containsAny (q.map Char.toLower) comparison_keywords = false →
        (analyze_query q).query_type = .general)
    ∧ (("what is".data <:+: q.map Char.toLower) →
       ("difference".data <:+: q.map Char.toLower) →
        (analyze_query q).query_type = .definition) := by
  have hlast : ("what is".data <:+: q.map Char.toLower) →
      containsAny (q.map Char.toLower) definition_keywords = true :=
    fun h => containsAny_of_infix (by simp [definition_keywords]) h
  by_cases h1 : containsAny (q.map Char.toLower) definition_keywords <;>
    by_cases h2 : containsAny (q.map Char.toLower) process_keywords <;>
    by_cases h3 : containsAny (q.map Char.toLower) comparison_keywords <;>
    refine ⟨by simp [analyze_query, h1, h2, h3], ?_, ?_, ?_, ?_, ?_, ?_⟩ <;>
    simp_all [analyze_query, h1, h2, h3]

/-- C2 witness: "What is the difference between A and B?" contains both
"what is" and "difference" and classifies as definition, with the original
text preserved. -/
theorem analyze_query_total_with_priority_witness :
    (analyze_query "What is the difference between A and B?".data).query_type
        = QueryType.definition
    ∧ (analyze_query "What is the difference between A and B?".data).original_query
        = "What is the difference between A and B?".data :=
  ⟨(analyze_query_total_with_priority
        "What is the difference between A and B?".data).2.2.2.2.2.2
      (by decide) (by decide),
    (analyze_query_total_with_priority
        "What is the difference between A and B?".data).1⟩

/-- C4 counterexample: the dedup key is the single concatenated string
`filename + "-" + title`, not the pair, so the distinct pairs
("a-b", "c") and ("a", "b-c") collide and the second entry is removed even
though its filename+title pair differs from the first's. -/
theorem dedup_concatenation_collision :
    dedupeSources
        [⟨some "a-b".data, some "c".data, none⟩,
         ⟨some "a".data, some "b-c".data, none⟩] []
      = [sourceInfoOf ⟨some "a-b".data, some "c".data, none⟩]
    ∧ ((some "a".data, some "b-c".data) : Option (List Char) × Option (List Char))
        ≠ (some "a-b".data, some "c".data)
    ∧ sourceInfoOf ⟨some "a".data, some "b-c".data, none⟩
        ∉ dedupeSources
            [⟨some "a-b".data, some "c".data, none⟩,
             ⟨some "a".data, some "b-c".data, none⟩] [] := by
  refine ⟨by decide, by decide, by decide⟩

/-- C4 (amended): `search_documents` deduplicates sources by the concatenated
string `filename + "-" + title` (with empty-string defaults): the first
occurrence of each concatenated key is kept, every later entry with the same
concatenated key is removed, and first-seen insertion order is preserved —
exactly the `firstOccByKey` reference function; the retrieved chunks are
passed through unchanged. -/
theorem search_documents_dedup_first_occurrence
    (docs : List (List Char)) (metas : List SourceMeta) :
    (search_documents (.ok (docs, metas))).sources = firstOccByKey metas
    ∧ (search_documents (.ok (docs, metas))).context_chunks = docs := by
  constructor
  · have h := dedupeSources_eq_firstOcc metas []
    simpa [search_documents, List.filter_true] using h
  · rfl

/-- C10: `log_upload` appends exactly one entry, preserving all existing
entries, when the log file holds valid JSON; when the file exists but holds
invalid JSON (or is missing), the whole log is replaced by an array holding
only the new entry, silently discarding everything previously recorded. -/
theorem log_upload_append_or_reset (l : List LogEntry) (fn : List Char)
    (n : Nat) (meta : FileMeta) (h now : List Char) :
    log_upload (.valid l) fn n meta h now = .valid (l ++ [⟨fn, n, now, meta, h⟩])
    ∧ log_upload .corrupt fn n meta h now = .valid [⟨fn, n, now, meta, h⟩]
    ∧ log_upload .absent fn n meta h now = .valid [⟨fn, n, now, meta, h⟩] :=
  ⟨rfl, rfl, rfl⟩

/-- C1: a file whose content hash already exists in the vector store is
rejected as a duplicate during validation: the pipeline returns the
duplicate-file error and the state is untouched — no chunk is added, the
upload log is not written, and the stored chunk count is unchanged. -/
theorem duplicate_file_rejected_before_any_write
    (chunker : List Char → List (List Char))
    (encode : List (List Char) → Except (List Char) (List (List Int)))
    (now : List Char) (st : SysState) (f : FileInput)
    (hdup : hashExists st.store f.content_hash = true) :
    process_file_with_progress chunker encode now st f
        = (.error (.duplicateFile f.filename), st)
    ∧ (process_file_with_progress chunker encode now st f).2.store = st.store
    ∧ (process_file_with_progress chunker encode now st f).2.log = st.log
    ∧ (process_file_with_progress chunker encode now st f).2.store.length
        = st.store.length := by
  have h : process_file_with_progress chunker encode now st f
      = (.error (.duplicateFile f.filename), st) := by
    unfold process_file_with_progress
    simp [hdup]
  exact ⟨h, by rw [h], by rw [h], by rw [h]⟩

/-- C1 witness: a store already holding a chunk with hash "h1" rejects a new
file with the same content hash, leaving the state unchanged. -/
theorem duplicate_file_rejected_before_any_write_witness :
    process_file_with_progress (fun t => [t])
        (fun cs => .ok (cs.map (fun _ => [0])))
        []
        ⟨[⟨"text".data, "a.txt".data, "h1".data, 4,
            ⟨"a.txt".data, "Unknown".data, 0⟩⟩], .absent⟩
        ⟨"b.txt".data, "h1".data, "some text".data,
          ⟨"b.txt".data, "Unknown".data, 0⟩⟩
      = (.error (.duplicateFile "b.txt".data),
          ⟨[⟨"text".data, "a.txt".data, "h1".data, 4,
              ⟨"a.txt".data, "Unknown".data, 0⟩⟩], .absent⟩) :=
  (duplicate_file_rejected_before_any_write (fun t => [t])
      (fun cs => .ok (cs.map (fun _ => [0]))) []
      ⟨[⟨"text".data, "a.txt".data, "h1".data, 4,
          ⟨"a.txt".data, "Unknown".data, 0⟩⟩], .absent⟩
      ⟨"b.txt".data, "h1".data, "some text".data,
        ⟨"b.txt".data, "Unknown".data, 0⟩⟩
      (by decide)).1

/-- C5 counterexample: with LangChain unavailable, the in-repository fallback
of `split_text_into_chunks` splits only on blank lines, so a single
600-character paragraph comes back as one chunk of length 600 — the
configured maximum size 512 is not enforced by the repository's own code. -/
theorem fallback_chunk_exceeds_max_size :
    split_text_into_chunks false (fun t => [t]) (List.replicate 600 'a')
        = [List.replicate 600 'a']
    ∧ 512 < (List.replicate 600 'a').length := by
  constructor
  · have h1 : splitOnNN (List.replicate 600 'a') = [List.replicate 600 'a'] :=
      splitOnNN_no_newline (by
        intro hmem
        have := List.eq_of_mem_replicate hmem
        simp at this)
    have h2 : pyStrip (List.replicate 600 'a') = List.replicate 600 'a' :=
      pyStrip_eq_self_of_all _ (by
        intro c hc
        rw [List.eq_of_mem_replicate hc]
        rfl)
    have hne : List.replicate 600 'a' ≠ [] := by
      rw [show (600 : Nat) = 599 + 1 from rfl, List.replicate_succ]
      exact List.cons_ne_nil _ _
    unfold split_text_into_chunks split_text_into_chunks_fallback
    rw [if_neg (by simp), h1, List.map_cons, List.map_nil, h2]
    exact List.filter_eq_self.mpr (fun a ha => by
      rw [List.mem_singleton.mp ha]
      exact decide_eq_true hne)
  · rw [List.length_replicate]
    norm_num

/-- C5 (amended): the fallback chunker produces only non-empty (stripped)
chunks, and produces at least one chunk whenever the input contains any
non-whitespace character; and whenever the chunker used by the ingestion
pipeline returns zero chunks, `process_file_with_progress` fails hard with
the "No chunks created" error, leaving the state unchanged, rather than
storing an empty chunk set.  (The 512-character bound holds only in the
external LangChain branch, not in the repository's fallback.) -/
theorem fallback_chunker_and_empty_chunk_failure
    (sp : List Char → List (List Char)) (text : List Char)
    (chunker : List Char → List (List Char))
    (encode : List (List Char) → Except (List Char) (List (List Int)))
    (now : List Char) (st : SysState) (f : FileInput) :
    (∀ p ∈ split_text_into_chunks false sp text, p ≠ [])
    ∧ ((∃ c ∈ text, isPyWS c = false) →
        split_text_into_chunks false sp text ≠ [])
    ∧ (hashExists st.store f.content_hash = false →
       fileExt f.filename ∈ supported_exts →
       pyStrip f.parsed_text ≠ [] →
       chunker f.parsed_text = [] →
       process_file_with_progress chunker encode now st f
          = (.error (.emptyChunkSet f.filename), st)) := by
  refine ⟨?_, ?_, ?_⟩
  · intro p hp
    have h : (∃ a ∈ splitOnNN text, pyStrip a = p) ∧ ¬p = [] := by
      simpa [split_text_into_chunks, split_text_into_chunks_fallback] using hp
    exact h.2
  · intro ⟨c, hc, hcw⟩
    have hcn : c ≠ '\n' := by
      intro h
      rw [h] at hcw
      cases hcw
    rcases splitOnNN_mem c text hc hcn with ⟨p, hp, hcp⟩
    have hstrip : c ∈ pyStrip p := mem_pyStrip c p hcp hcw
    have hne : pyStrip p ≠ [] := List.ne_nil_of_mem hstrip
    have hmem : pyStrip p ∈ split_text_into_chunks false sp text := by
      unfold split_text_into_chunks split_text_into_chunks_fallback
      rw [if_neg (by simp)]
      exact List.mem_filter.mpr
        ⟨List.mem_map_of_mem pyStrip hp, decide_eq_true hne⟩
    exact List.ne_nil_of_mem hmem
  · intro hdup hext htext hchunks
    unfold process_file_with_progress
    simp [hdup, hext, htext, hchunks]

/-- C5 witness: a plain-text file whose chunker returns zero chunks makes
ingestion fail with the "No chunks created" error on an untouched state. -/
theorem fallback_chunker_and_empty_chunk_failure_witness :
    process_file_with_progress (fun _ => [])
        (fun cs => .ok (cs.map (fun _ => [0]))) []
        ⟨[], .absent⟩
        ⟨"b.txt".data, "h1".data, "some text".data,
          ⟨"b.txt".data, "Unknown".data, 0⟩⟩
      = (.error (.emptyChunkSet "b.txt".data), ⟨[], .absent⟩) :=
  (fallback_chunker_and_empty_chunk_failure (fun t => [t]) "x".data
      (fun _ => []) (fun cs => .ok (cs.map (fun _ => [0]))) []
      ⟨[], .absent⟩
      ⟨"b.txt".data, "h1".data, "some text".data,
        ⟨"b.txt".data, "Unknown".data, 0⟩⟩).2.2
    (by decide) (by decide) (by decide) rfl

/-- C6: `safe_encode` tries the external encode call at most 3 times,
sleeping once between consecutive attempts and never after the last; a
successful attempt returns its result immediately with no further calls, and
after three failures it raises the message carrying the last underlying
error. -/
theorem safe_encode_retry_behaviour {R : Type} (f : Nat → Except (List Char) R) :
    (∀ r, f 0 = .ok r →
      safe_encode f 3 = (some (.ok r), [.callEncode]))
    ∧ (∀ e0 r, f 0 = .error e0 → f 1 = .ok r →
      safe_encode f 3 = (some (.ok r), [.callEncode, .sleepSecond, .callEncode]))
    ∧ (∀ e0 e1 r, f 0 = .error e0 → f 1 = .error e1 → f 2 = .ok r →
      safe_encode f 3 = (some (.ok r),
        [.callEncode, .sleepSecond, .callEncode, .sleepSecond, .callEncode]))
    ∧ (∀ e0 e1 e2, f 0 = .error e0 → f 1 = .error e1 → f 2 = .error e2 →
      safe_encode f 3
        = (some (.error ("Embedding failed after 3 retries: ".data ++ e2)),
          [.callEncode, .sleepSecond, .callEncode, .sleepSecond, .callEncode])) := by
  have hrange : List.range 3 = [0, 1, 2] := by decide
  have hrepr : (Nat.repr 3).data = ['3'] := by decide
  refine ⟨?_, ?_, ?_, ?_⟩
  · intro r h0
    simp [safe_encode, hrange, safe_encode_go, h0]
  · intro e0 r h0 h1
    simp [safe_encode, hrange, safe_encode_go, h0, h1]
  · intro e0 e1 r h0 h1 h2
    simp [safe_encode, hrange, safe_encode_go, h0, h1, h2]
  · intro e0 e1 e2 h0 h1 h2
    simp [safe_encode, hrange, safe_encode_go, h0, h1, h2, hrepr]

/-- C6 witness: with the first two attempts failing and the third succeeding,
`safe_encode` returns the third attempt's result after exactly three calls
with a sleep between each pair of consecutive attempts. -/
theorem safe_encode_retry_behaviour_witness :
    safe_encode (fun n => if n < 2 then .error "transient".data else .ok ([[1]] : List (List Int))) 3
      = (some (.ok [[1]]),
        [.callEncode, .sleepSecond, .callEncode, .sleepSecond, .callEncode]) :=
  (safe_encode_retry_behaviour
      (fun n => if n < 2 then .error "transient".data else .ok [[1]])).2.2.1
    "transient".data "transient".data [[1]] rfl rfl rfl

/-- C3 counterexample: with Gemini selected and available, a failing
downstream model call is caught inside `generate_response` (the model
manager), so the chat pipeline's answer begins
"Sorry, I encountered an error: " — not
"I found relevant documents but encountered an error: " as the claim
states. -/
theorem model_failure_not_found_documents_message :
    (process_query ⟨"gemini".data, true, none⟩
        (fun _ => .error "boom".data) (fun _ => .ok [])
        (.ok (["A neural network is a computational model".data],
          [⟨some "doc.txt".data, some "doc.txt".data, some "Unknown".data⟩]))
        "hello".data).answer
      = "Sorry, I encountered an error: boom".data
    ∧ ¬ ("I found relevant documents but encountered an error: ".data
          <+: (process_query ⟨"gemini".data, true, none⟩
              (fun _ => .error "boom".data) (fun _ => .ok [])
              (.ok (["A neural network is a computational model".data],
                [⟨some "doc.txt".data, some "doc.txt".data, some "Unknown".data⟩]))
              "hello".data).answer) := by
  constructor
  · rfl
  · intro hpre
    rcases hpre with ⟨t, ht⟩
    cases ht

/-- C3 (amended): every stage failure is caught and the caller of the chat
pipeline always receives a textual response.  A failing downstream model call
is caught inside the model manager and yields an answer beginning
"Sorry, I encountered an error: " (the
"I found relevant documents but encountered an error: " prefix belongs to the
answer-generation stage's own handler, which the model-call path never
reaches), and a retrieval failure yields an empty chunk and source set while
generation still runs. -/
theorem pipeline_failures_become_text_answers (mm : MMState)
    (gemini_call local_call : List Char → Except (List Char) (List Char))
    (queryRes : Except (List Char) (List (List Char) × List SourceMeta))
    (q e : List Char)
    (hm : mm.current_model = "gemini".data)
    (hg : mm.gemini_available = true)
    (hfail : ∀ p, gemini_call p = .error e) :
    (process_query mm gemini_call local_call queryRes q).answer
        = "Sorry, I encountered an error: ".data ++ e
    ∧ (process_query mm gemini_call local_call queryRes q).question = q
    ∧ (∀ e2, search_documents (Except.error e2 :
          Except (List Char) (List (List Char) × List SourceMeta))
        = ⟨[], [], 0, some e2⟩)
    ∧ (∀ e2, queryRes = .error e2 →
        (process_query mm gemini_call local_call queryRes q).sources = []) := by
  refine ⟨?_, rfl, fun e2 => rfl, ?_⟩
  · simp [process_query, generate_answer, generate_response, hm, hg, hfail]
  · intro e2 he2
    unfold process_query
    rw [he2]
    rfl

/-- C3 witness: a concrete query through the pipeline with a failing Gemini
call and a failing retrieval still produces the "Sorry, …" answer, the
original question, and an empty source list. -/
theorem pipeline_failures_become_text_answers_witness :
    (process_query ⟨"gemini".data, true, none⟩ (fun _ => .error "down".data)
        (fun _ => .ok []) (.error "chroma down".data) "hi".data).answer
      = "Sorry, I encountered an error: ".data ++ "down".data
    ∧ (process_query ⟨"gemini".data, true, none⟩ (fun _ => .error "down".data)
        (fun _ => .ok []) (.error "chroma down".data) "hi".data).sources = [] :=
  ⟨(pipeline_failures_become_text_answers ⟨"gemini".data, true, none⟩
      (fun _ => .error "down".data) (fun _ => .ok [])
      (.error "chroma down".data) "hi".data "down".data rfl rfl
      (fun _ => rfl)).1,
    (pipeline_failures_become_text_answers ⟨"gemini".data, true, none⟩
      (fun _ => .error "down".data) (fun _ => .ok [])
      (.error "chroma down".data) "hi".data "down".data rfl rfl
      (fun _ => rfl)).2.2.2 "chroma down".data rfl⟩

theorem process_ok_filename
    (chunker : List Char → List (List Char))
    (encode : List (List Char) → Except (List Char) (List (List Int)))
    (now : List Char) (st : SysState) (f : FileInput)
    (s : Summary) (st' : SysState)
    (h : process_file_with_progress chunker encode now st f = (.ok s, st')) :
    s.filename = f.filename := by
  unfold process_file_with_progress at h
  by_cases h1 : hashExists st.store f.content_hash = true
  · simp [h1] at h
  · by_cases h2 : fileExt f.filename ∈ supported_exts
    · by_cases h3 : pyStrip f.parsed_text = []
      · simp [h1, h2, h3] at h
      · by_cases h4 : chunker f.parsed_text = []
        · simp [h1, h2, h3, h4] at h
        · rcases he : encode (chunker f.parsed_text) with e | emb
          · simp [h1, h2, h3, h4, he] at h
          · simp [h1, h2, h3, h4, he] at h
            rw [← h.1]
    · simp [h1, h2] at h

theorem uploadLoop_counts
    (chunker : List Char → List (List Char))
    (encode : List (List Char) → Except (List Char) (List (List Int)))
    (now : List Char) :
    ∀ (files : List FileInput) (st : SysState),
      (uploadLoop chunker encode now st files).1.length
          + (uploadLoop chunker encode now st files).2.1.length
        = files.length := by
  intro files
  induction files with
  | nil => intro st; simp [uploadLoop]
  | cons f fs ih =>
    intro st
    rcases hp : process_file_with_progress chunker encode now st f with ⟨res, st'⟩
    cases res with
    | ok s =>
      simp only [uploadLoop, hp, List.length_cons]
      have := ih st'
      omega
    | error e =>
      simp only [uploadLoop, hp, List.length_cons]
      have := ih st'
      omega

theorem uploadLoop_order
    (chunker : List Char → List (List Char))
    (encode : List (List Char) → Except (List Char) (List (List Int)))
    (now : List Char) :
    ∀ (files : List FileInput) (st : SysState),
      ((uploadLoop chunker encode now st files).1.map
          Summary.filename).Sublist (files.map FileInput.filename)
      ∧ ((uploadLoop chunker encode now st files).2.1.map
          BatchErr.filename).Sublist (files.map FileInput.filename) := by
  intro files
  induction files with
  | nil => intro st; simp [uploadLoop]
  | cons f fs ih =>
    intro st
    rcases hp : process_file_with_progress chunker encode now st f with ⟨res, st'⟩
    cases res with
    | ok s =>
      have hfn : s.filename = f.filename :=
        process_ok_filename chunker encode now st f s st' hp
      simp only [uploadLoop, hp, List.map_cons]
      exact ⟨hfn ▸ List.Sublist.cons₂ _ (ih st').1,
        List.Sublist.cons _ (ih st').2⟩
    | error e =>
      simp only [uploadLoop, hp, List.map_cons]
      exact ⟨List.Sublist.cons _ (ih st').1,
        List.Sublist.cons₂ _ (ih st').2⟩

/-- C7: batch upload processes the files sequentially in input order; every
file lands in exactly one of the two result lists (a success summary or a
structured per-file error entry), so one file's failure never aborts the
batch; `processed_count` and `error_count` are the lengths of those lists and
they always sum to the number of files; and both lists respect the input
order (their filename sequences are subsequences of the input's). -/
theorem batch_upload_isolates_failures
    (chunker : List Char → List (List Char))
    (encode : List (List Char) → Except (List Char) (List (List Int)))
    (now : List Char) (st : SysState) (files : List FileInput)
    (hne : files ≠ []) :
    (upload_folder chunker encode now st files).1.processed_count
        = (upload_folder chunker encode now st files).1.documents_processed.length
    ∧ (upload_folder chunker encode now st files).1.error_count
        = (upload_folder chunker encode now st files).1.errors.length
    ∧ (upload_folder chunker encode now st files).1.processed_count
        + (upload_folder chunker encode now st files).1.error_count
      = files.length
    ∧ (upload_folder chunker encode now st files).1.total_files = files.length
    ∧ ((upload_folder chunker encode now st
          files).1.documents_processed.map Summary.filename).Sublist
        (files.map FileInput.filename)
    ∧ ((upload_folder chunker encode now st files).1.errors.map
          BatchErr.filename).Sublist (files.map FileInput.filename) := by
  have hlen : files.length ≠ 0 := by
    intro h
    exact hne (List.length_eq_zero.mp h)
  unfold upload_folder
  rw [if_neg hlen]
  exact ⟨rfl, rfl, uploadLoop_counts chunker encode now files st, rfl,
    (uploadLoop_order chunker encode now files st).1,
    (uploadLoop_order chunker encode now files st).2⟩

/-- C7 witness: a two-file batch whose first file is a duplicate (and fails)
still processes the second file; the response records one success and one
structured error, counts matching, in input order. -/
theorem batch_upload_isolates_failures_witness :
    (upload_folder (fun t => [t]) (fun cs => .ok (cs.map (fun _ => [0]))) []
        ⟨[⟨"text".data, "a.txt".data, "h1".data, 4,
            ⟨"a.txt".data, "Unknown".data, 0⟩⟩], .absent⟩
        [⟨"b.txt".data, "h1".data, "dup text".data,
            ⟨"b.txt".data, "Unknown".data, 0⟩⟩,
         ⟨"c.txt".data, "h2".data, "fresh text".data,
            ⟨"c.txt".data, "Unknown".data, 0⟩⟩]).1.processed_count
      + (upload_folder (fun t => [t]) (fun cs => .ok (cs.map (fun _ => [0]))) []
          ⟨[⟨"text".data, "a.txt".data, "h1".data, 4,
              ⟨"a.txt".data, "Unknown".data, 0⟩⟩], .absent⟩
          [⟨"b.txt".data, "h1".data, "dup text".data,
              ⟨"b.txt".data, "Unknown".data, 0⟩⟩,
           ⟨"c.txt".data, "h2".data, "fresh text".data,
              ⟨"c.txt".data, "Unknown".data, 0⟩⟩]).1.error_count
      = 2 :=
  (batch_upload_isolates_failures (fun t => [t])
      (fun cs => .ok (cs.map (fun _ => [0]))) []
      ⟨[⟨"text".data, "a.txt".data, "h1".data, 4,
          ⟨"a.txt".data, "Unknown".data, 0⟩⟩], .absent⟩
      [⟨"b.txt".data, "h1".data, "dup text".data,
          ⟨"b.txt".data, "Unknown".data, 0⟩⟩,
       ⟨"c.txt".data, "h2".data, "fresh text".data,
          ⟨"c.txt".data, "Unknown".data, 0⟩⟩]
      (by decide)).2.2.1

theorem set_inactive_map_fst (file : UserFile) (sid : List Char) :
    (set_inactive file sid).map Prod.fst = file.map Prod.fst := by
  unfold set_inactive
  rw [List.map_map]
  apply List.map_congr_left
  intro p _
  by_cases h : p.1 = sid <;> simp [h]

theorem set_inactive_idem (file : UserFile) (sid : List Char) :
    set_inactive (set_inactive file sid) sid = set_inactive file sid := by
  unfold set_inactive
  rw [List.map_map]
  apply List.map_congr_left
  intro p _
  by_cases h : p.1 = sid <;> simp [h]

/-- C9: `delete_session` returns `True` exactly when the session ID occurs in
the user's file, regardless of the session's current active flag; and it is
idempotent — a second call returns the same Boolean and leaves the stored
file identical to the state after the first call. -/
theorem delete_session_returns_presence_and_idempotent
    (file : UserFile) (sid : List Char) :
    ((delete_session file sid).1 = (file.map Prod.fst).contains sid)
    ∧ delete_session (delete_session file sid).2 sid
        = ((delete_session file sid).1, (delete_session file sid).2) := by
  constructor
  · by_cases h : (file.map Prod.fst).contains sid = true
    · have h2 : delete_session file sid = (true, set_inactive file sid) := by
        unfold delete_session
        rw [if_pos h]
      rw [h2, h]
    · have h2 : delete_session file sid = (false, file) := by
        unfold delete_session
        rw [if_neg h]
      rw [h2]
      exact (Bool.eq_false_iff.mpr h).symm
  · by_cases h : (file.map Prod.fst).contains sid = true
    · have h2 : delete_session file sid = (true, set_inactive file sid) := by
        unfold delete_session
        rw [if_pos h]
      rw [h2]
      unfold delete_session
      rw [if_pos (by rw [set_inactive_map_fst]; exact h), set_inactive_idem]
    · have h2 : delete_session file sid = (false, file) := by
        unfold delete_session
        rw [if_neg h]
      rw [h2]
      unfold delete_session
      rw [if_neg h]

/-- C8: soft-deleting a present session only flips its active flag: the call
returns `True`; the file keeps the same length and the same keys (nothing is
physically removed); the session record is still stored with all fields other
than `is_active` unchanged (in particular all its messages); every other
entry is untouched; and the session no longer appears in `get_user_sessions`.
The hypotheses state the dictionary invariant of the Python file: each
session record carries its own key as its `id`. -/
theorem delete_session_soft_only
    (file : UserFile) (sid : List Char) (s : Session)
    (hmem : (sid, s) ∈ file)
    (hwf : ∀ p ∈ file, Session.id p.2 = p.1) :
    (delete_session file sid).1 = true
    ∧ ((delete_session file sid).2).length = file.length
    ∧ ((delete_session file sid).2).map Prod.fst = file.map Prod.fst
    ∧ (sid, { s with is_active := some false }) ∈ (delete_session file sid).2
    ∧ (∀ p ∈ file, p.1 ≠ sid → p ∈ (delete_session file sid).2)
    ∧ (∀ t ∈ get_user_sessions (delete_session file sid).2, t.id ≠ sid) := by
  have hcontains : (file.map Prod.fst).contains sid = true := by
    have hx : sid ∈ file.map Prod.fst := List.mem_map.mpr ⟨(sid, s), hmem, rfl⟩
    exact List.elem_eq_true_of_mem hx
  have hdel : delete_session file sid = (true, set_inactive file sid) := by
    unfold delete_session
    rw [if_pos hcontains]
  refine ⟨by rw [hdel], ?_, ?_, ?_, ?_, ?_⟩
  · rw [hdel]
    unfold set_inactive
    exact List.length_map _ _
  · rw [hdel]
    exact set_inactive_map_fst file sid
  · rw [hdel]
    have : (fun p : List Char × Session =>
        if p.1 = sid then (p.1, { p.2 with is_active := some false }) else p)
          (sid, s) = (sid, { s with is_active := some false }) := by simp
    exact this ▸ List.mem_map_of_mem _ hmem
  · intro p hp hne
    rw [hdel]
    have hgp0 : (fun q : List Char × Session =>
        if q.1 = sid then (q.1, { q.2 with is_active := some false }) else q) p
          = p := by
      simp [hne]
    exact hgp0 ▸ List.mem_map_of_mem _ hp
  · intro t ht
    rw [hdel] at ht
    unfold get_user_sessions at ht
    have ht2 := List.mem_filter.mp (List.mem_mergeSort.mp ht)
    rcases List.mem_map.mp ht2.1 with ⟨p, hpmem, hpt⟩
    rcases List.mem_map.mp hpmem with ⟨p0, hp0, hgp⟩
    by_cases hk : p0.1 = sid
    · exfalso
      have hgp0 : (if p0.1 = sid
            then (p0.1, { p0.2 with is_active := some false }) else p0)
          = (p0.1, { p0.2 with is_active := some false }) := if_pos hk
      rw [hgp0] at hgp
      have hact : t.is_active = some false := by
        rw [← hpt, ← hgp]
      have hfilter := ht2.2
      simp only [hact] at hfilter
      simp at hfilter
    · have hgp0 : (if p0.1 = sid
            then (p0.1, { p0.2 with is_active := some false }) else p0)
          = p0 := if_neg hk
      rw [hgp0] at hgp
      have hid : t.id = p0.1 := by
        rw [← hpt, ← hgp]
        exact hwf p0 hp0
      rw [hid]
      exact hk

/-- C8 witness: in a file with two sessions, soft-deleting the first returns
`True`, keeps both records in storage, and removes the first from the active
session listing. -/
theorem delete_session_soft_only_witness :
    (delete_session
        [("A".data, ⟨"A".data, "u".data, "t1".data, [], "c1".data, "u1".data, some true⟩),
         ("B".data, ⟨"B".data, "u".data, "t2".data, [], "c2".data, "u2".data, some true⟩)]
        "A".data).1 = true
    ∧ ((delete_session
        [("A".data, ⟨"A".data, "u".data, "t1".data, [], "c1".data, "u1".data, some true⟩),
         ("B".data, ⟨"B".data, "u".data, "t2".data, [], "c2".data, "u2".data, some true⟩)]
        "A".data).2).length = 2 :=
  ⟨(delete_session_soft_only
      [("A".data, ⟨"A".data, "u".data, "t1".data, [], "c1".data, "u1".data, some true⟩),
       ("B".data, ⟨"B".data, "u".data, "t2".data, [], "c2".data, "u2".data, some true⟩)]
      "A".data
      ⟨"A".data, "u".data, "t1".data, [], "c1".data, "u1".data, some true⟩
      (by decide) (by decide)).1,
    (delete_session_soft_only
      [("A".data, ⟨"A".data, "u".data, "t1".data, [], "c1".data, "u1".data, some true⟩),
       ("B".data, ⟨"B".data, "u".data, "t2".data, [], "c2".data, "u2".data, some true⟩)]
      "A".data
      ⟨"A".data, "u".data, "t1".data, [], "c1".data, "u1".data, some true⟩
      (by decide) (by decide)).2.1⟩

end DocuMind
